import Mathlib

/-!
Verification of the peertube-plugin-aichat ingestion/retrieval pipeline.

Shallow embedding of the plugin's server code:
  - `server/video-processor.js` : `parseTimestamp`, `parseTranscript`,
    and the snapshot-interval validation of `extractVideoSnapshots`;
  - `server/chat-service.js` / the database service : `cosineSimilarity`,
    `findSimilarChunks` (pgvector backend), `findSimilarChunksFallback`,
    `getVideoEmbeddings`, `getVideoSnapshots`, `getChatHistory`,
    `updateProcessingStatus` (both backends), `saveVideoEmbedding`,
    `saveVideoSnapshot`, `extractTimestamps`, and the history-window
    computation of `generateChatResponse`.

Modelling conventions:
  - JavaScript numbers are modelled by the exact rational type `Q` below
    (kernel-computable, canonical representation), and numbers that can be
    `NaN` by `Option Q` (`none` = `NaN`); every numeric value the claims
    exercise is an exact rational.
  - `Math.sqrt` is modelled by `Q.sqrt`, exact on rationals whose square
    root is rational; every evaluation in this file stays in that domain.
  - `String.split` / `String.trim` of JavaScript are given kernel-reducible
    models `jsSplit` / `jsTrim` over the character lists of the strings.
  - Database tables are lists of rows in insertion order; `ORDER BY` clauses
    are realised by stable sorting (`sortByB`), and `ORDER BY created_at
    DESC` over an append-only log with nondecreasing timestamps is realised
    by `List.reverse`.
-/

namespace AiChat

/-! ### Exact rationals with kernel-computable arithmetic

Mathlib's `ℚ` operations are `@[irreducible]`, so concrete runs of the
embedded code could not be checked with `decide`.  `Q` is a plain
numerator/denominator pair kept in canonical form (denominator positive,
fraction reduced), so structural equality coincides with equality of
rational values for every `Q` built by the operations below. -/

structure Q where
  num : Int
  den : Nat
deriving DecidableEq, Repr

/-- Embed an integer. -/
def Q.ofInt (n : Int) : Q := ⟨n, 1⟩

instance (n : Nat) : OfNat Q n := ⟨Q.ofInt n⟩

/-- Canonical form of the fraction `n / d` (`d ≠ 0` at every use site;
`d = 0` is mapped to `0` to stay total). -/
def Q.norm (n d : Int) : Q :=
  if d = 0 then ⟨0, 1⟩
  else
    let n' := if d < 0 then -n else n
    let d' := (if d < 0 then -d else d).toNat
    let g := n'.natAbs.gcd d'
    ⟨n' / (g : Int), d' / g⟩

def Q.add (a b : Q) : Q := Q.norm (a.num * b.den + b.num * a.den) (a.den * b.den)

def Q.sub (a b : Q) : Q := Q.norm (a.num * b.den - b.num * a.den) (a.den * b.den)

def Q.mul (a b : Q) : Q := Q.norm (a.num * b.num) (a.den * b.den)

def Q.div (a b : Q) : Q := Q.norm (a.num * b.den) (a.den * b.num)

/-- Boolean `a ≤ b` (denominators are positive, so cross-multiplying is
order-preserving). -/
def Q.ble (a b : Q) : Bool := decide (a.num * b.den ≤ b.num * a.den)

/-- Binary search for the integer square root; the fuel only makes the
recursion structural and is instantiated generously. -/
def isqrtAux (n : Nat) : Nat → Nat → Nat → Nat
  | 0, lo, _ => lo
  | fuel + 1, lo, hi =>
    if hi ≤ lo + 1 then lo
    else
      let mid := (lo + hi) / 2
      if mid * mid ≤ n then isqrtAux n fuel mid hi else isqrtAux n fuel lo mid

/-- Integer square root (kernel-computable). -/
def isqrt (n : Nat) : Nat := isqrtAux n (n + 2) 0 (n + 1)

/-- `Math.sqrt`, exact on rationals whose square root is rational; other
inputs do not occur in any evaluation in this file. -/
def Q.sqrt (q : Q) : Q :=
  let sn := isqrt q.num.toNat
  let sd := isqrt q.den
  if 0 ≤ q.num ∧ sn * sn = q.num.toNat ∧ sd * sd = q.den then Q.norm sn sd else 0

/-! ### JavaScript string primitives -/

/-- Whitespace for the purposes of `String.prototype.trim` (the code only
ever meets spaces, tabs and line terminators). -/
def isSpaceChar (c : Char) : Bool := c = ' ' || c = '\t' || c = '\n' || c = '\r'

/-- Characters of a string with leading and trailing whitespace removed. -/
def trimChars (cs : List Char) : List Char :=
  ((cs.dropWhile isSpaceChar).reverse.dropWhile isSpaceChar).reverse

/-- JavaScript `s.trim()`. -/
def jsTrim (s : String) : String := ⟨trimChars s.data⟩

/-- Split a character list at every occurrence of the (non-empty) separator
`sep`.  The fuel argument is instantiated with the length of the list, which
every step strictly decreases, so it never runs out; it only makes the
recursion structural. -/
def splitOnSepAux (sep : List Char) : Nat → List Char → List Char → List (List Char)
  | _, [], acc => [acc.reverse]
  | 0, cs, acc => [acc.reverse ++ cs]
  | fuel + 1, c :: rest, acc =>
    if sep.isPrefixOf (c :: rest) then
      acc.reverse :: splitOnSepAux sep fuel ((c :: rest).drop sep.length) []
    else
      splitOnSepAux sep fuel rest (c :: acc)

/-- JavaScript `s.split(sep)` for a non-empty string separator. -/
def jsSplit (sep : String) (s : String) : List String :=
  match sep.data with
  | [] => [s]
  | s0 :: srest => (splitOnSepAux (s0 :: srest) s.data.length s.data []).map String.mk

/-! ### JavaScript number model -/

/-- A JavaScript number that may be `NaN`: `none` models `NaN`. -/
abbrev JSNum := Option Q

/-- JS addition: `NaN` propagates. -/
def jsAdd (a b : JSNum) : JSNum :=
  match a, b with
  | some x, some y => some (x.add y)
  | _, _ => none

/-- JS subtraction: `NaN` propagates. -/
def jsSub (a b : JSNum) : JSNum :=
  match a, b with
  | some x, some y => some (x.sub y)
  | _, _ => none

/-- JS multiplication by a constant: `NaN` propagates. -/
def jsMul (a : JSNum) (k : Q) : JSNum :=
  match a with
  | some x => some (x.mul k)
  | none => none

/-- JS `a >= b`: any comparison against `NaN` is false. -/
def jsGe (a b : JSNum) : Bool :=
  match a, b with
  | some x, some y => Q.ble y x
  | _, _ => false

/-- JS `a || b` on numbers: `0` and `NaN` are falsy. -/
def jsOrElse (a b : JSNum) : JSNum :=
  match a with
  | some x => if x = 0 then b else some x
  | none => b

/-- Integer value of a list of decimal digit characters, most significant
first. -/
def digitsVal (cs : List Char) : Int :=
  cs.foldl (fun acc c => acc * 10 + ((c.toNat - '0'.toNat : Nat) : Int)) 0

/-- `parseFloat` as applied to the timestamp components the caption parser
feeds it: an optional integer part and an optional decimal fraction, both
strings of decimal digits; trailing characters are ignored, and a string
starting with no digit at all yields `NaN`.  (Signs and exponents never
occur in the parser's inputs and are not modelled.) -/
def jsParseFloat (s : String) : JSNum :=
  let cs := s.data
  let intPart := cs.takeWhile Char.isDigit
  let rest := cs.dropWhile Char.isDigit
  match rest with
  | '.' :: afterDot =>
    let fracPart := afterDot.takeWhile Char.isDigit
    if intPart.isEmpty && fracPart.isEmpty then none
    else
      some ((Q.ofInt (digitsVal intPart)).add
        ((Q.ofInt (digitsVal fracPart)).div (Q.ofInt ((10 : Int) ^ fracPart.length))))
  | _ =>
    if intPart.isEmpty then none else some (Q.ofInt (digitsVal intPart))

/-! ### Caption Segmenter (`video-processor.js`: `parseTimestamp`, `parseTranscript`) -/

/-- `parseTimestamp`: `"hh:mm:ss.mmm"` or `"mm:ss.mmm"` to seconds; any
other shape yields `0`. -/
def parseTimestamp (timestamp : String) : JSNum :=
  match jsSplit ":" timestamp with
  | [a, b, c] =>
    jsAdd (jsAdd (jsMul (jsParseFloat a) 3600) (jsMul (jsParseFloat b) 60)) (jsParseFloat c)
  | [a, b] => jsAdd (jsMul (jsParseFloat a) 60) (jsParseFloat b)
  | _ => some 0

/-- A transcript chunk as built by `parseTranscript`. -/
structure TranscriptChunk where
  index : Nat
  startTime : JSNum
  endTime : JSNum
  content : String
deriving DecidableEq, Repr

/-- Parser state threaded through the line scan of `parseTranscript`. -/
structure ParseState where
  chunks : List TranscriptChunk
  currentChunk : TranscriptChunk
  currentTime : JSNum
deriving Repr

/-- A line counts as cue text when it is non-blank, is not a pure decimal
cue index (`/^\d+$/` on the raw line), and does not start with `WEBVTT`. -/
def isContentLine (line : String) : Bool :=
  jsTrim line ≠ "" && !(line ≠ "" && line.data.all Char.isDigit) &&
    !("WEBVTT".data.isPrefixOf line.data)

/-- One step of the `parseTranscript` loop on a single line.  Note that the
cue text is appended to the current chunk *before* the duration check, so
the first cue past the boundary still lands in the chunk being closed. -/
def processLine (chunkDuration : Q) (st : ParseState) (line : String) : ParseState :=
  let times := jsSplit "-->" line
  if times.length ≥ 2 then
    match times with
    | [t0, _] => { st with currentTime := parseTimestamp (jsTrim t0) }
    | _ => st
  else if isContentLine line then
    let c := { st.currentChunk with content := st.currentChunk.content ++ " " ++ jsTrim line }
    if jsGe (jsSub st.currentTime c.startTime) (some chunkDuration) then
      let closed := { c with endTime := st.currentTime }
      let newChunks :=
        if jsTrim closed.content ≠ "" then st.chunks ++ [closed] else st.chunks
      { chunks := newChunks
        currentChunk :=
          { index := newChunks.length, startTime := st.currentTime
            endTime := some 0, content := "" }
        currentTime := st.currentTime }
    else { st with currentChunk := c }
  else st

/-- `parseTranscript`: scan the caption lines, accumulating cue text into
the current chunk and closing it once the most recent cue start time is at
least `chunkDuration` (hard-coded 30) past the chunk's start; the final
partial chunk is flushed with `currentTime || startTime + 30` as its end. -/
def parseTranscript (transcriptText : String) : List TranscriptChunk :=
  let chunkDuration : Q := 30
  let init : ParseState := ⟨[], ⟨0, some 0, some 0, ""⟩, some 0⟩
  let st := (jsSplit "\n" transcriptText).foldl (processLine chunkDuration) init
  if jsTrim st.currentChunk.content ≠ "" then
    st.chunks ++
      [{ st.currentChunk with
          endTime := jsOrElse st.currentTime
            (jsAdd st.currentChunk.startTime (some chunkDuration)) }]
  else st.chunks

/-! ### Stable sorting (model of SQL `ORDER BY` and `Array.prototype.sort`) -/

/-- Insert `x` after every earlier element `y` with `le y x`, so equal keys
keep their original relative order (JavaScript's `sort` is stable, and ties
in the SQL `ORDER BY` keys do not occur in the inputs considered here). -/
def insertByB (le : α → α → Bool) (x : α) : List α → List α
  | [] => [x]
  | y :: ys => if le y x then y :: insertByB le x ys else x :: y :: ys

/-- Stable insertion sort by a boolean "may stay before" relation. -/
def sortByB (le : α → α → Bool) : List α → List α
  | [] => []
  | x :: xs => insertByB le x (sortByB le xs)

/-! ### Embedding Store: cosine similarity and the two search backends -/

/-- `cosineSimilarity` from the database service: `0` for an absent vector,
for mismatched lengths, and for a zero norm; otherwise the usual quotient.
The function is total — there is no input on which it raises or produces a
`NaN`. -/
def cosineSimilarity (vecA vecB : Option (List Q)) : Q :=
  match vecA, vecB with
  | some a, some b =>
    if a.length ≠ b.length then 0
    else
      let dotProduct := ((a.zip b).map fun p => p.1.mul p.2).foldl Q.add 0
      let normA := (a.map fun x => x.mul x).foldl Q.add 0
      let normB := (b.map fun x => x.mul x).foldl Q.add 0
      if normA = 0 ∨ normB = 0 then 0
      else dotProduct.div ((Q.sqrt normA).mul (Q.sqrt normB))
  | _, _ => 0

/-- A row of `plugin_ai_video_embeddings` (the columns the claims need). -/
structure EmbeddingRow where
  videoUuid : String
  chunkIndex : Nat
  startTime : Q
  endTime : Q
  content : String
  embedding : Option (List Q)
deriving DecidableEq, Repr

/-- Squared Euclidean distance.  pgvector's `<->` operator computes the
Euclidean distance; since the square root is strictly monotone, ordering by
the squared distance is the same ordering, and stays inside `Q`. -/
def l2sqDist (a b : List Q) : Q :=
  ((a.zip b).map fun p => (p.1.sub p.2).mul (p.1.sub p.2)).foldl Q.add 0

/-- A result row of the pgvector `findSimilarChunks` query (the `distance`
column is reported as the squared Euclidean distance, see `l2sqDist`). -/
structure SimilarChunk where
  content : String
  startTime : Q
  endTime : Q
  distance : Q
deriving DecidableEq, Repr

/-- Native-backend `findSimilarChunks`: the SQL query keeps the asset's rows
whose `embedding IS NOT NULL`, orders them by `embedding <-> query` ascending
and applies `LIMIT`. -/
def findSimilarChunks (table : List EmbeddingRow) (videoUuid : String)
    (queryEmbedding : List Q) (limit : Nat) : List SimilarChunk :=
  let rows := table.filter fun r => r.videoUuid == videoUuid && r.embedding.isSome
  let sorted := sortByB
    (fun x y => Q.ble (l2sqDist (x.embedding.getD []) queryEmbedding)
                      (l2sqDist (y.embedding.getD []) queryEmbedding)) rows
  (sorted.take limit).map fun r =>
    ⟨r.content, r.startTime, r.endTime, l2sqDist (r.embedding.getD []) queryEmbedding⟩

/-- A chunk as stored by the fallback backend under `video_embeddings`. -/
structure FallbackChunk where
  chunkIndex : Nat
  startTime : Q
  endTime : Q
  content : String
  embedding : Option (List Q)
deriving DecidableEq, Repr

/-- `{ ...chunk, similarity }` as built by `findSimilarChunksFallback`. -/
structure ScoredChunk where
  chunk : FallbackChunk
  similarity : Q
deriving DecidableEq, Repr

/-- Fallback-backend `findSimilarChunksFallback`: score every stored chunk
of the asset by cosine similarity against the query (an absent embedding
scores `0`), sort by similarity descending (stable) and take the first
`limit`. -/
def findSimilarChunksFallback (chunks : List FallbackChunk)
    (queryEmbedding : List Q) (limit : Nat) : List ScoredChunk :=
  if chunks.isEmpty then []
  else
    let similarities := chunks.map fun c =>
      ⟨c, cosineSimilarity (some queryEmbedding) c.embedding⟩
    (sortByB (fun a b => Q.ble b.similarity a.similarity) similarities).take limit

/-- Native-backend `getVideoEmbeddings`: the asset's rows ordered by
`chunk_index`, mapped to the chunk shape shared with the fallback store. -/
def getVideoEmbeddings (table : List EmbeddingRow) (videoUuid : String) :
    List FallbackChunk :=
  (sortByB (fun a b => a.chunkIndex ≤ b.chunkIndex)
      (table.filter fun r => r.videoUuid == videoUuid)).map fun r =>
    ⟨r.chunkIndex, r.startTime, r.endTime, r.content, r.embedding⟩

/-! ### Snapshots -/

/-- A row of `plugin_ai_video_snapshots` (the columns the claims need). -/
structure SnapshotRow where
  videoUuid : String
  timestamp : Q
  filePath : String
  description : Option String
deriving DecidableEq, Repr

/-- Native-backend `getVideoSnapshots`: the asset's rows, restricted to the
inclusive time range when both bounds are given, ordered by timestamp. -/
def getVideoSnapshots (table : List SnapshotRow) (videoUuid : String)
    (minTime maxTime : Option Q) : List SnapshotRow :=
  let rows := table.filter fun r => r.videoUuid == videoUuid &&
    (match minTime, maxTime with
     | some lo, some hi => Q.ble lo r.timestamp && Q.ble r.timestamp hi
     | _, _ => true)
  sortByB (fun a b => Q.ble a.timestamp b.timestamp) rows

/-! ### Chat history -/

/-- A row of `plugin_ai_chat_sessions`; `createdAt` is the insertion
timestamp (the table is an append-only log). -/
structure ChatExchange where
  videoId : Nat
  userId : Option Nat
  message : String
  response : String
  createdAt : Nat
deriving DecidableEq, Repr

/-- JavaScript truthiness of the optional `userId` parameter (`null`,
`undefined` and `0` are falsy). -/
def userIdTruthy : Option Nat → Bool
  | some u => u != 0
  | none => false

/-- The row-matching predicate of the native `getChatHistory` query:
`WHERE video_id = $1` with `AND user_id = $2` added only for a truthy
`userId` parameter. -/
def chatHistoryMatches (videoId : Nat) (userId : Option Nat) (e : ChatExchange) : Bool :=
  e.videoId == videoId && (if userIdTruthy userId then e.userId == userId else true)

/-- Native-backend `getChatHistory`: the asset's exchanges (optionally
restricted to one user), `ORDER BY created_at DESC LIMIT 50`.  The table is
kept in insertion order with nondecreasing `created_at`, so the descending
order is its reverse. -/
def getChatHistory (table : List ChatExchange) (videoId : Nat)
    (userId : Option Nat) : List ChatExchange :=
  (table.filter (chatHistoryMatches videoId userId)).reverse.take 50

/-- The history window `generateChatResponse` actually puts in the prompt:
`history.slice(-20).reverse()` applied to the list `getChatHistory`
returned. -/
def recentHistory (history : List ChatExchange) : List ChatExchange :=
  (history.drop (history.length - 20)).reverse

/-- History as included in the prompt for an asset: fetch, then window. -/
def promptHistory (table : List ChatExchange) (videoId : Nat)
    (userId : Option Nat) : List ChatExchange :=
  recentHistory (getChatHistory table videoId userId)

/-! ### Processing queue -/

/-- A row of `plugin_ai_processing_queue`. -/
structure QueueRow where
  videoUuid : String
  status : String
  errorMessage : Option String
  createdAt : Nat
  processedAt : Option Nat
deriving DecidableEq, Repr

/-- Native-backend `updateProcessingStatus`: `UPDATE ... SET status,
error_message, processed_at = CASE WHEN status = 'completed' THEN NOW()
ELSE NULL END WHERE video_uuid = $1`. -/
def updateProcessingStatus (table : List QueueRow) (videoUuid : String)
    (status : String) (errorMessage : Option String) (now : Nat) : List QueueRow :=
  table.map fun r =>
    if r.videoUuid == videoUuid then
      { r with status := status, errorMessage := errorMessage
               processedAt := if status == "completed" then some now else none }
    else r

/-- An item of the fallback `processing_queue` collection. -/
structure QueueItem where
  videoUuid : String
  videoId : Nat
  status : String
  errorMessage : Option String
  createdAt : Nat
  processedAt : Option Nat
deriving DecidableEq, Repr

/-- Fallback-backend `updateProcessingStatusFallback`: `queue.find(...)`
locates the first item for the asset and mutates it in place (no item, no
change). -/
def updateProcessingStatusFallback (queue : List QueueItem) (videoUuid : String)
    (status : String) (errorMessage : Option String) (now : Nat) : List QueueItem :=
  match queue with
  | [] => []
  | i :: rest =>
    if i.videoUuid == videoUuid then
      { i with status := status
               processedAt := if status == "completed" then some now else none
               errorMessage := errorMessage } :: rest
    else i :: updateProcessingStatusFallback rest videoUuid status errorMessage now

/-! ### Failure semantics of the native backend (`try`/`catch` shape)

Each native storage function wraps its `dbClient.query` call in
`try`/`catch`; the parameter below is the outcome of that query.  Read
paths catch and return an empty result; `saveVideoEmbedding` rethrows from
its catch block, while `saveVideoSnapshot` only logs. -/

/-- `saveVideoEmbedding`: on a storage error the catch block rethrows. -/
def saveVideoEmbedding (queryResult : Except String Unit) : Except String Unit :=
  match queryResult with
  | .ok _ => .ok ()
  | .error e => .error e

/-- `saveVideoSnapshot`: the catch block only logs, so the error is
swallowed and the call returns normally. -/
def saveVideoSnapshot (queryResult : Except String Unit) : Except String Unit :=
  match queryResult with
  | .ok _ => .ok ()
  | .error _ => .ok ()

/-- `getVideoEmbeddings` with the query outcome made explicit: a storage
error yields `[]`. -/
def getVideoEmbeddingsCaught (db : Except String (List EmbeddingRow))
    (videoUuid : String) : List FallbackChunk :=
  match db with
  | .ok table => getVideoEmbeddings table videoUuid
  | .error _ => []

/-- `findSimilarChunks` with the query outcome made explicit: a storage
error yields `[]`. -/
def findSimilarChunksCaught (db : Except String (List EmbeddingRow))
    (videoUuid : String) (queryEmbedding : List Q) (limit : Nat) : List SimilarChunk :=
  match db with
  | .ok table => findSimilarChunks table videoUuid queryEmbedding limit
  | .error _ => []

/-- `getVideoSnapshots` with the query outcome made explicit: a storage
error yields `[]`. -/
def getVideoSnapshotsCaught (db : Except String (List SnapshotRow))
    (videoUuid : String) (minTime maxTime : Option Q) : List SnapshotRow :=
  match db with
  | .ok table => getVideoSnapshots table videoUuid minTime maxTime
  | .error _ => []

/-- `getChatHistory` with the query outcome made explicit: a storage error
yields `[]`. -/
def getChatHistoryCaught (db : Except String (List ChatExchange))
    (videoId : Nat) (userId : Option Nat) : List ChatExchange :=
  match db with
  | .ok table => getChatHistory table videoId userId
  | .error _ => []

/-! ### Snapshot interval validation (`extractVideoSnapshots`) -/

/-- The effective snapshot interval: `parseInt` of the setting is `none`
when it produced `NaN`.  `NaN` or a value below `1` falls back to the
default `5`; a value above `60` is capped at `60`; anything else is used
unchanged. -/
def effectiveSnapshotInterval (parsed : Option Int) : Int :=
  match parsed with
  | none => 5
  | some i => if i < 1 then 5 else if i > 60 then 60 else i

/-! ### Timestamp extraction (`extractTimestamps`) -/

/-- One entry of the `extractTimestamps` result: the matched display text
(including the brackets) and the absolute second count. -/
structure TimestampEntry where
  display : String
  seconds : Nat
deriving DecidableEq, Repr

/-- Numeric value of one or two digit characters (the regex guarantees the
captured groups are pure digit strings, so `parseInt` is exact). -/
def digitsNat (cs : List Char) : Nat :=
  cs.foldl (fun acc c => acc * 10 + (c.toNat - '0'.toNat)) 0

/-- Try to match the tail of `/\[(\d{1,2}:\d{2}(?::\d{2})?)\]/` right after
an opening bracket: one or two digits, a colon, two digits, optionally a
colon and two more digits, then the closing bracket.  On success, return
the characters of the whole match (brackets included), the parsed second
count, and the characters following the match. -/
def matchAfterBracket (cs : List Char) : Option (List Char × Nat × List Char) :=
  let firstComponent : Option (List Char × List Char) :=
    match cs with
    | a :: b :: c :: rest =>
      if a.isDigit && b.isDigit then
        if c = ':' then some ([a, b], rest) else none
      else if a.isDigit && b = ':' then some ([a], c :: rest)
      else none
    | _ => none
  match firstComponent with
  | none => none
  | some (h, afterColon) =>
    match afterColon with
    | m1 :: m2 :: tail =>
      if m1.isDigit && m2.isDigit then
        match tail with
        | ']' :: rest =>
          some ('[' :: h ++ [':', m1, m2, ']'],
                digitsNat h * 60 + digitsNat [m1, m2], rest)
        | ':' :: s1 :: s2 :: ']' :: rest =>
          if s1.isDigit && s2.isDigit then
            some ('[' :: h ++ [':', m1, m2, ':', s1, s2, ']'],
                  digitsNat h * 3600 + digitsNat [m1, m2] * 60 + digitsNat [s1, s2],
                  rest)
          else none
        | _ => none
      else none
    | _ => none

/-- Scan for every non-overlapping match, left to right, resuming after
each match exactly as `regex.exec` with the `g` flag does.  The fuel is
instantiated with the length of the list; every step consumes at least one
character, so it never runs out — it only makes the recursion structural. -/
def scanTimestampsAux : Nat → List Char → List TimestampEntry
  | _, [] => []
  | 0, _ => []
  | fuel + 1, c :: cs =>
    if c = '[' then
      match matchAfterBracket cs with
      | some (display, secs, rest) => ⟨⟨display⟩, secs⟩ :: scanTimestampsAux fuel rest
      | none => scanTimestampsAux fuel cs
    else scanTimestampsAux fuel cs

/-- `extractTimestamps`: collect every `[M:SS]` / `[H:MM:SS]` token of the
reply text with its absolute second count. -/
def extractTimestamps (text : String) : List TimestampEntry :=
  scanTimestampsAux text.data.length text.data

/-- Decidable rendering of "the text contains no bracketed timestamp
token": at no position does a match of the timestamp pattern start. -/
def noTimestampToken : List Char → Bool
  | [] => true
  | c :: cs => (!(c = '[') || (matchAfterBracket cs).isNone) && noTimestampToken cs

/-! ### Concrete inputs used by the claim evaluations -/

/-- A transcript with cues starting at `0:00`, `0:15` and `0:45`, each cue's
text being `intro talk` (the shape of the spec's end-to-end example). -/
def vttThreeCues : String :=
  "WEBVTT\n\n00:00.000 --> 00:05.000\nintro talk\n\n00:15.000 --> 00:20.000\nintro talk\n\n00:45.000 --> 00:50.000\nintro talk\n"

/-- Two fully-embedded chunks for asset `v1`: chunk 0 far away from but
aligned with the query direction, chunk 1 nearby but orthogonal. -/
def embTableTwoChunks : List EmbeddingRow :=
  [⟨"v1", 0, 0, 10, "A", some [60, 80]⟩, ⟨"v1", 1, 10, 20, "B", some [0, 1]⟩]

/-- The same two chunks as stored by the fallback backend. -/
def fbChunksTwo : List FallbackChunk :=
  [⟨0, 0, 10, "A", some [60, 80]⟩, ⟨1, 10, 20, "B", some [0, 1]⟩]

/-- A single stored chunk whose embedding has not been computed yet. -/
def fbChunkNoEmbedding : List FallbackChunk := [⟨0, 0, 10, "A", none⟩]

/-- An append-only chat log with 21 exchanges for asset 1, created at times
`1, 2, …, 21`. -/
def chatLog21 : List ChatExchange :=
  (List.range 21).map fun i => ⟨1, none, "m", "r", i + 1⟩

/-- A chat log used by the history-shape witness. -/
def chatLog3 : List ChatExchange :=
  [⟨1, none, "a", "ra", 1⟩, ⟨2, none, "x", "rx", 2⟩, ⟨1, none, "b", "rb", 3⟩]

/-- A queue with one pending record for asset `v1`. -/
def queueTablePending : List QueueRow := [⟨"v1", "pending", none, 0, none⟩]

/-- A fallback queue with one processing item for asset `v1`. -/
def queueItemsProcessing : List QueueItem := [⟨"v1", 1, "processing", none, 0, none⟩]

/-! ### Helper lemmas about the stable sort -/

theorem mem_insertByB {le : α → α → Bool} {x a : α} {l : List α} :
    a ∈ insertByB le x l ↔ a = x ∨ a ∈ l := by
  induction l with
  | nil => simp [insertByB]
  | cons y ys ih =>
    by_cases h : le y x = true
    · simp [insertByB, h, ih]
      tauto
    · simp [insertByB, h]

theorem mem_sortByB {le : α → α → Bool} {a : α} {l : List α} :
    a ∈ sortByB le l ↔ a ∈ l := by
  induction l with
  | nil => simp [sortByB]
  | cons y ys ih => simp [sortByB, mem_insertByB, ih]

theorem length_insertByB {le : α → α → Bool} (x : α) (l : List α) :
    (insertByB le x l).length = l.length + 1 := by
  induction l with
  | nil => simp [insertByB]
  | cons y ys ih =>
    by_cases h : le y x = true <;> simp [insertByB, h, ih]

theorem length_sortByB {le : α → α → Bool} (l : List α) :
    (sortByB le l).length = l.length := by
  induction l with
  | nil => simp [sortByB]
  | cons y ys ih => simp [sortByB, length_insertByB, ih]

/-- Folding `Q.add` over squares of zeros stays at zero. -/
theorem foldadd_squares_zero {z : List Q} (hz : ∀ x ∈ z, x = 0) :
    ((z.map fun x => x.mul x).foldl Q.add 0) = 0 := by
  induction z with
  | nil => rfl
  | cons x xs ih =>
    have hx : x = 0 := hz x (by simp)
    have hxs : ∀ y ∈ xs, y = 0 := fun y hy => hz y (by simp [hy])
    simpa [hx, show Q.add 0 ((0 : Q).mul 0) = 0 from by decide] using ih hxs

/-- Taking from a reversed list is reversing a suffix. -/
theorem take_reverse_eq_reverse_drop (l : List α) (n : Nat) :
    l.reverse.take n = (l.drop (l.length - n)).reverse := by
  have h := List.rtake_eq_reverse_take_reverse (l := l) (n := n)
  rw [List.rtake] at h
  rw [h, List.reverse_reverse]

/-- A text with no position at which the timestamp pattern matches scans to
the empty result, whatever the fuel. -/
theorem scanTimestampsAux_eq_nil (fuel : Nat) :
    ∀ cs : List Char, noTimestampToken cs = true → scanTimestampsAux fuel cs = [] := by
  induction fuel with
  | zero => intro cs _; cases cs <;> rfl
  | succ n ih =>
    intro cs h
    cases cs with
    | nil => rfl
    | cons c rest =>
      rw [noTimestampToken, Bool.and_eq_true, Bool.or_eq_true] at h
      obtain ⟨h1, h2⟩ := h
      by_cases hc : c = '['
      · have hnone : matchAfterBracket rest = none := by
          rcases h1 with h1 | h1
          · simp [hc] at h1
          · exact Option.isNone_iff_eq_none.1 h1
        simp [scanTimestampsAux, hc, hnone, ih rest h2]
      · simp [scanTimestampsAux, hc, ih rest h2]

/-- After the fallback status update, the record `find` locates for the
asset satisfies the `processedAt`/`completed` linkage. -/
theorem findFallbackQueue_after_update {uuid status : String}
    {msg : Option String} {now : Nat} :
    ∀ (queue : List QueueItem) (r : QueueItem),
      (updateProcessingStatusFallback queue uuid status msg now).find?
          (fun i => i.videoUuid == uuid) = some r →
      (r.processedAt ≠ none ↔ r.status = "completed") := by
  intro queue
  induction queue with
  | nil => intro r hr; simp [updateProcessingStatusFallback] at hr
  | cons i rest ih =>
    intro r hr
    rw [updateProcessingStatusFallback] at hr
    by_cases hm : (i.videoUuid == uuid) = true
    · rw [if_pos hm, List.find?] at hr
      simp only [hm] at hr
      rw [Option.some.injEq] at hr
      subst hr
      by_cases hs : status = "completed" <;> simp [hs]
    · rw [if_neg hm, List.find?] at hr
      simp only [hm] at hr
      exact ih r hr

/-! ## The claims -/

set_option maxRecDepth 20000

/-- Claim C1, counterexample: for the transcript with cues at `0:00`,
`0:15` and `0:45` (each cue's text `intro talk`) and segment duration 30,
`parseTranscript` does *not* yield two chunks — the cue at `0:45` is
accumulated into the current chunk before the duration check fires, so a
single chunk comes out. -/
theorem parseTranscript_threeCues_not_two_chunks :
    (parseTranscript vttThreeCues).length ≠ 2 := by decide

/-- Claim C1, amended: on the transcript with cues at `0:00`, `0:15` and
`0:45`, each cue's text `intro talk`, `parseTranscript` yields exactly one
chunk, with index 0, time bounds `[0, 45]`, containing the concatenated
text of all three cues. -/
theorem parseTranscript_threeCues_one_chunk :
    parseTranscript vttThreeCues =
      [⟨0, some 0, some 45, " intro talk intro talk intro talk"⟩] := by decide

/-- Claim C2: the two backends run on the same stored vectors and the same
query embedding (all chunks carrying embeddings) return different rank
orders — the native query orders by pgvector Euclidean distance (`<->`)
and puts chunk `B` first, while the fallback orders by cosine similarity
and puts chunk `A` first.  The schema builds the ivfflat index with
`vector_cosine_ops`, so the cosine ordering is the intended one. -/
theorem findSimilarChunks_backends_disagree :
    (findSimilarChunks embTableTwoChunks "v1" [1, 0] 5).map (fun r => r.content) =
        ["B", "A"]
    ∧ (findSimilarChunksFallback fbChunksTwo [1, 0] 5).map (fun s => s.chunk.content) =
        ["A", "B"] :=
  ⟨by decide, by decide⟩

/-- Claim C3, counterexample: the fallback backend returns a chunk whose
embedding is absent, ranked with similarity 0, instead of excluding it. -/
theorem findSimilarChunksFallback_keeps_missing_embedding :
    findSimilarChunksFallback fbChunkNoEmbedding [1, 0] 5 =
      [⟨⟨0, 0, 10, "A", none⟩, 0⟩] := by decide

/-- Claim C3, amended: the native backend never returns a chunk whose
embedding is absent (every result row projects from a stored row with an
embedding), while the fallback backend keeps every stored chunk in the
ranking — it returns `min k N` results regardless of missing embeddings,
scoring embedding-less chunks with similarity 0. -/
theorem similaritySearch_missing_embedding_handling :
    (∀ (table : List EmbeddingRow) (uuid : String) (q : List Q) (lim : Nat) r,
        r ∈ findSimilarChunks table uuid q lim →
        ∃ row ∈ table, row.embedding.isSome ∧ row.content = r.content ∧
          row.startTime = r.startTime ∧ row.endTime = r.endTime)
    ∧ (∀ (chunks : List FallbackChunk) (q : List Q) (lim : Nat),
        (findSimilarChunksFallback chunks q lim).length = min lim chunks.length)
    ∧ (∀ (chunks : List FallbackChunk) (q : List Q) (lim : Nat) s,
        s ∈ findSimilarChunksFallback chunks q lim →
        s.chunk.embedding = none → s.similarity = 0) := by
  refine ⟨?_, ?_, ?_⟩
  · intro table uuid q lim r hr
    simp only [findSimilarChunks, List.mem_map] at hr
    obtain ⟨a, ha, hmap⟩ := hr
    have ha' := mem_sortByB.1 (List.mem_of_mem_take ha)
    rw [List.mem_filter] at ha'
    obtain ⟨hmem, hpred⟩ := ha'
    rw [Bool.and_eq_true] at hpred
    exact ⟨a, hmem, hpred.2, by rw [← hmap], by rw [← hmap], by rw [← hmap]⟩
  · intro chunks q lim
    rw [findSimilarChunksFallback]
    by_cases he : chunks.isEmpty
    · rw [if_pos he]
      rw [List.isEmpty_iff] at he
      simp [he]
    · rw [if_neg he]
      simp [List.length_take, length_sortByB]
  · intro chunks q lim s hs hnone
    rw [findSimilarChunksFallback] at hs
    by_cases he : chunks.isEmpty
    · rw [if_pos he] at hs
      simp at hs
    · rw [if_neg he] at hs
      have hs' := mem_sortByB.1 (List.mem_of_mem_take hs)
      rw [List.mem_map] at hs'
      obtain ⟨c, _, hc⟩ := hs'
      have hemb : c.embedding = none := by rw [← hc] at hnone; exact hnone
      rw [← hc, hemb]
      rfl

/-- Claim C3, witness: a concrete native search result traced back to a
stored row that carries an embedding. -/
theorem similaritySearch_missing_embedding_handling_witness :
    ∃ row ∈ embTableTwoChunks, row.embedding.isSome ∧ row.content = "B" ∧
      row.startTime = (10 : Q) ∧ row.endTime = (20 : Q) :=
  similaritySearch_missing_embedding_handling.1 embTableTwoChunks "v1" [1, 0] 5
    ⟨"B", 10, 20, 2⟩ (by decide)

/-- Claim C4: with 21 stored exchanges (creation times 1..21) the prompt
history is the exchanges created at times 1..20 in chronological order —
the code drops the *newest* exchange instead of the oldest, because
`history.slice(-20)` takes the tail of the DESC-ordered batch.  The claim
(and the code's own comment "last 20 exchanges") expects times 2..21. -/
theorem promptHistory_drops_newest_exchange :
    (promptHistory chatLog21 1 none).map (fun e => e.createdAt) =
        (List.range 20).map (· + 1)
    ∧ (promptHistory chatLog21 1 none).map (fun e => e.createdAt) ≠
        (List.range 20).map (· + 2) :=
  ⟨by decide, by decide⟩

/-- Claim C5, counterexample: a storage error during `saveVideoSnapshot`
is swallowed — the call returns normally instead of propagating. -/
theorem saveVideoSnapshot_swallows_error :
    saveVideoSnapshot (Except.error "disk full") = Except.ok ()
    ∧ saveVideoSnapshot (Except.error "disk full") ≠ Except.error "disk full" :=
  ⟨rfl, fun h => Except.noConfusion h⟩

/-- Claim C5, amended: every read operation of the native backend returns
an empty result when the storage query throws, and `saveVideoEmbedding`
propagates a storage error; `saveVideoSnapshot`, however, swallows the
error and returns normally. -/
theorem storage_failure_semantics :
    (∀ (e : String) (uuid : String), getVideoEmbeddingsCaught (.error e) uuid = [])
    ∧ (∀ (e uuid : String) (q : List Q) (lim : Nat),
        findSimilarChunksCaught (.error e) uuid q lim = [])
    ∧ (∀ (e uuid : String) (lo hi : Option Q),
        getVideoSnapshotsCaught (.error e) uuid lo hi = [])
    ∧ (∀ (e : String) (vid : Nat) (uid : Option Nat),
        getChatHistoryCaught (.error e) vid uid = [])
    ∧ (∀ e : String, saveVideoEmbedding (.error e) = .error e)
    ∧ (∀ e : String, saveVideoSnapshot (.error e) = .ok ()) :=
  ⟨fun _ _ => rfl, fun _ _ _ _ => rfl, fun _ _ _ _ => rfl, fun _ _ _ => rfl,
   fun _ => rfl, fun _ => rfl⟩

/-- Claim C6, counterexample: a configured snapshot interval of `0` is
replaced by the default `5`, not clamped to the nearest bound `1`. -/
theorem effectiveSnapshotInterval_zero_is_default :
    effectiveSnapshotInterval (some 0) = 5 ∧ (5 : Int) ≠ 1 :=
  ⟨rfl, by decide⟩

/-- Claim C6, amended: the effective snapshot interval never errors and
always lands in `[1, 60]`: in-range values are used unchanged and values
above 60 are capped at 60, but values below 1 (or an unparseable setting)
are replaced by the default 5 rather than clamped to 1. -/
theorem effectiveSnapshotInterval_clamp :
    (∀ i : Int, 1 ≤ i → i ≤ 60 → effectiveSnapshotInterval (some i) = i)
    ∧ (∀ i : Int, i < 1 → effectiveSnapshotInterval (some i) = 5)
    ∧ (∀ i : Int, 60 < i → effectiveSnapshotInterval (some i) = 60)
    ∧ effectiveSnapshotInterval none = 5
    ∧ (∀ v, 1 ≤ effectiveSnapshotInterval v ∧ effectiveSnapshotInterval v ≤ 60) := by
  refine ⟨?_, ?_, ?_, rfl, ?_⟩
  · intro i h1 h60
    simp only [effectiveSnapshotInterval]
    split_ifs
    all_goals omega
  · intro i h
    simp only [effectiveSnapshotInterval]
    split_ifs
    all_goals omega
  · intro i h
    simp only [effectiveSnapshotInterval]
    split_ifs
    all_goals omega
  · intro v
    cases v with
    | none => exact ⟨by decide, by decide⟩
    | some i =>
      simp only [effectiveSnapshotInterval]
      split_ifs <;> omega

/-- Claim C6, witness: the amended clamping behaviour at 30, 0 and 100. -/
theorem effectiveSnapshotInterval_clamp_witness :
    effectiveSnapshotInterval (some 30) = 30
    ∧ effectiveSnapshotInterval (some 0) = 5
    ∧ effectiveSnapshotInterval (some 100) = 60 :=
  ⟨effectiveSnapshotInterval_clamp.1 30 (by decide) (by decide),
   effectiveSnapshotInterval_clamp.2.1 0 (by decide),
   effectiveSnapshotInterval_clamp.2.2.1 100 (by decide)⟩

/-- Claim C7: `cosineSimilarity` is total — it returns 0 for an all-zero
second argument, for an absent argument on either side, and for vectors of
different lengths; being a total function into `Q`, it can produce neither
`NaN` nor an exception. -/
theorem cosineSimilarity_total :
    (∀ v z : List Q, (∀ x ∈ z, x = 0) → cosineSimilarity (some v) (some z) = 0)
    ∧ (∀ b, cosineSimilarity none b = 0)
    ∧ (∀ a, cosineSimilarity (some a) none = 0)
    ∧ (∀ a b : List Q, a.length ≠ b.length →
        cosineSimilarity (some a) (some b) = 0) := by
  refine ⟨?_, fun _ => rfl, fun _ => rfl, ?_⟩
  · intro v z hz
    by_cases hlen : v.length = z.length
    · simp [cosineSimilarity, hlen, foldadd_squares_zero hz]
    · simp [cosineSimilarity, hlen]
  · intro a b h
    simp [cosineSimilarity, h]

/-- Claim C7, witness: a nonzero vector against the zero vector, and a
dimension mismatch, both score 0. -/
theorem cosineSimilarity_total_witness :
    cosineSimilarity (some [1, 2]) (some [0, 0]) = 0
    ∧ cosineSimilarity (some [1]) (some [1, 1]) = 0 :=
  ⟨cosineSimilarity_total.1 [1, 2] [0, 0] (by decide),
   cosineSimilarity_total.2.2.2 [1] [1, 1] (by decide)⟩

/-- Claim C8: `extractTimestamps` on `"see [1:05] and [12:30:00]"` yields
exactly the second counts 65 and 45000 in that order, and any text with no
bracketed timestamp token yields the empty list. -/
theorem extractTimestamps_spec :
    ((extractTimestamps "see [1:05] and [12:30:00]").map (fun t => t.seconds) =
        [65, 45000])
    ∧ (∀ s : String, noTimestampToken s.data = true → extractTimestamps s = []) := by
  refine ⟨by decide, ?_⟩
  intro s h
  exact scanTimestampsAux_eq_nil s.data.length s.data h

/-- Claim C8, witness: a token-free reply yields no timestamps. -/
theorem extractTimestamps_spec_witness :
    noTimestampToken "thanks, watch the whole video".data = true
    ∧ extractTimestamps "thanks, watch the whole video" = [] :=
  ⟨by decide, extractTimestamps_spec.2 "thanks, watch the whole video" (by decide)⟩

/-- Claim C9: after `updateProcessingStatus` in either backend, the
asset's record has a non-null `processedAt` exactly when its status is
`completed`. -/
theorem updateProcessingStatus_processedAt_iff :
    (∀ (table : List QueueRow) (uuid status : String) (msg : Option String)
        (now : Nat) r,
        r ∈ updateProcessingStatus table uuid status msg now → r.videoUuid = uuid →
        (r.processedAt ≠ none ↔ r.status = "completed"))
    ∧ (∀ (queue : List QueueItem) (uuid status : String) (msg : Option String)
        (now : Nat) r,
        (updateProcessingStatusFallback queue uuid status msg now).find?
            (fun i => i.videoUuid == uuid) = some r →
        (r.processedAt ≠ none ↔ r.status = "completed")) := by
  constructor
  · intro table uuid status msg now r hr huuid
    rw [updateProcessingStatus, List.mem_map] at hr
    obtain ⟨a, _, hmap⟩ := hr
    by_cases hm : (a.videoUuid == uuid) = true
    · rw [if_pos hm] at hmap
      subst hmap
      by_cases hs : status = "completed" <;> simp [hs]
    · rw [if_neg hm] at hmap
      subst hmap
      rw [beq_iff_eq] at hm
      exact absurd huuid hm
  · intro queue uuid status msg now r hr
    exact findFallbackQueue_after_update queue r hr

/-- Claim C9, witness: completing a pending record stamps `processedAt`. -/
theorem updateProcessingStatus_processedAt_iff_witness :
    ((⟨"v1", "completed", none, 0, some 7⟩ : QueueRow).processedAt ≠ none ↔
      (⟨"v1", "completed", none, 0, some 7⟩ : QueueRow).status = "completed") :=
  updateProcessingStatus_processedAt_iff.1 queueTablePending "v1" "completed" none 7
    ⟨"v1", "completed", none, 0, some 7⟩ (by decide) (by decide)

/-- Claim C10: native `getChatHistory` returns at most 50 exchanges; for a
log in chronological order the result is in descending creation order; and
every returned exchange lies among the 50 most recent matching ones. -/
theorem getChatHistory_window :
    ∀ (table : List ChatExchange) (videoId : Nat) (userId : Option Nat),
      (getChatHistory table videoId userId).length ≤ 50
      ∧ (List.Pairwise (fun a b => a.createdAt ≤ b.createdAt) table →
          List.Pairwise (fun a b => b.createdAt ≤ a.createdAt)
            (getChatHistory table videoId userId))
      ∧ (∀ e ∈ getChatHistory table videoId userId,
          e ∈ (table.filter (chatHistoryMatches videoId userId)).drop
              ((table.filter (chatHistoryMatches videoId userId)).length - 50)) := by
  intro table videoId userId
  refine ⟨?_, ?_, ?_⟩
  · rw [getChatHistory]
    exact List.length_take_le 50 _
  · intro h
    rw [getChatHistory]
    refine List.Pairwise.sublist (List.take_sublist 50 _) ?_
    exact List.pairwise_reverse.2 (h.filter (chatHistoryMatches videoId userId))
  · intro e he
    rw [getChatHistory, take_reverse_eq_reverse_drop, List.mem_reverse] at he
    exact he

/-- Claim C10, witness: window shape on a concrete three-exchange log. -/
theorem getChatHistory_window_witness :
    (getChatHistory chatLog3 1 none).length ≤ 50
    ∧ List.Pairwise (fun a b => b.createdAt ≤ a.createdAt)
        (getChatHistory chatLog3 1 none)
    ∧ (⟨1, none, "b", "rb", 3⟩ : ChatExchange) ∈
        (chatLog3.filter (chatHistoryMatches 1 none)).drop
          ((chatLog3.filter (chatHistoryMatches 1 none)).length - 50) :=
  ⟨(getChatHistory_window chatLog3 1 none).1,
   (getChatHistory_window chatLog3 1 none).2.1 (by decide),
   (getChatHistory_window chatLog3 1 none).2.2 ⟨1, none, "b", "rb", 3⟩ (by decide)⟩

end AiChat
